import Mathlib

set_option synthInstance.maxSize 512

/-!
Verification of the CapStone plant-identification repository.

This file shallowly embeds the operations of the repository that the
claims concern:

* `src/Server/perenual_client.py` — the `PerenualClient` class: a pair of
  disk-backed caches (species details keyed by integer id, name search
  keyed by normalized query string) wrapping the Perenual HTTP API, plus
  manual cache-maintenance operations.
* `src/Server/server_main.py` — the `/predict` endpoint's Perenual
  enrichment section and the `preprocess_image` helper.
* `src/Training_program/tf_data_pipeline_new.py` — `create_tf_dataset`
  label inference for the `PlantClassifier` and `HealthDetector` model
  types.
* `src/PlantClassifier/CNNModel.py` — the time-windowed training loop of
  `CreateModel.train`.
* `src/PlantClassifier/organizer.py` — the CSV-manifest-driven dataset
  organizer.

Python dictionaries holding JSON data are modelled by association lists
over a small JSON value type; the effects relevant to the claims (HTTP
requests issued, cache reads and writes) are made explicit in the return
types.  Wall-clock time is an explicit natural-number parameter
(seconds); cache entries carry an optional absolute expiry instant,
matching `diskcache`'s behaviour of returning the default for expired
keys.
-/

/-- A primitive JSON value as found inside Perenual API responses. -/
inductive JPrim where
  | jstr (s : String)
  | jint (n : Int)
  | jnull
deriving DecidableEq, Repr

/-- A JSON field value: a primitive or a flat array of primitives
(sufficient for the fields the server reads, e.g. `sunlight`). -/
inductive JField where
  | prim (p : JPrim)
  | arr (l : List JPrim)
deriving DecidableEq, Repr

/-- A Python dict holding JSON data, as an association list. -/
abbrev PyDict := List (String × JField)

/-- Python truthiness of a primitive JSON value. -/
def JPrim.truthy : JPrim → Bool
  | .jstr s => s ≠ ""
  | .jint n => n ≠ 0
  | .jnull => false

/-- Python truthiness of a JSON field value. -/
def JField.truthy : JField → Bool
  | .prim p => p.truthy
  | .arr l => l ≠ []

/-- `d.get(k)`: first binding of `k` in the dict, `None` when absent. -/
def dictGet (d : PyDict) (k : String) : Option JField :=
  (d.find? (fun p => p.1 = k)).map (·.2)

/-- A Python value passed where an `int` is expected: either an actual
`int` or a value of some other type (`isinstance(x, int)` is false). -/
inductive PyInt where
  | int (n : Int)
  | nonInt
deriving DecidableEq, Repr

/-- A Python value passed where a `str` is expected: either an actual
string or a value of some other type (`isinstance(x, str)` is false). -/
inductive PyQuery where
  | str (s : String)
  | nonStr
deriving DecidableEq, Repr

/-- One `diskcache` entry: the stored value and an optional absolute
expiry instant (`expire=None` stores entries that never expire). -/
structure CacheEntry (α : Type) where
  value : α
  expireAt : Option ℕ
deriving DecidableEq, Repr

/-- Whether an entry is still live at instant `t`. -/
def entryLive (t : ℕ) {α : Type} (e : CacheEntry α) : Bool :=
  match e.expireAt with
  | none => true
  | some x => t < x

/-- `cache.get(k)` at instant `t`: the stored value when present and not
expired, otherwise the default `None`. -/
def cacheGet {κ α : Type} [DecidableEq κ] (c : List (κ × CacheEntry α)) (k : κ) (t : ℕ) :
    Option α :=
  match c.find? (fun p => p.1 = k) with
  | some pe => if entryLive t pe.2 then some pe.2.value else none
  | none => none

/-- `cache.set(k, v, expire=e)`: replace any binding of `k`. -/
def cacheSet {κ α : Type} [DecidableEq κ] (c : List (κ × CacheEntry α)) (k : κ) (v : α)
    (e : Option ℕ) : List (κ × CacheEntry α) :=
  (k, ⟨v, e⟩) :: c.filter (fun p => p.1 ≠ k)

/-- `k in cache` at instant `t`: `diskcache.__contains__` is false for
expired keys. -/
def cacheContains {κ α : Type} [DecidableEq κ] (c : List (κ × CacheEntry α)) (k : κ)
    (t : ℕ) : Bool :=
  (cacheGet c k t).isSome

/-- `del cache[k]`: remove every binding of `k`. -/
def cacheDel {κ α : Type} [DecidableEq κ] (c : List (κ × CacheEntry α)) (k : κ) :
    List (κ × CacheEntry α) :=
  c.filter (fun p => p.1 ≠ k)

/-- The details cache: species id (`int`) to cached details dict. -/
abbrev DetailsCache := List (Int × CacheEntry PyDict)

/-- The search cache: normalized query string to cached species list. -/
abbrev SearchCache := List (String × CacheEntry (List PyDict))

/-- The mutable state of a `PerenualClient`: each cache is `none` when
`diskcache.Cache(...)` failed in `__init__` (caching disabled). -/
structure ClientState where
  detailsCache : Option DetailsCache
  searchCache : Option SearchCache
deriving DecidableEq, Repr

/-- Truthiness of `self.api_key` (from `os.getenv`): `None` and the empty
string are falsy. -/
def hasApiKey : Option String → Bool
  | none => false
  | some s => s ≠ ""

/-- Seconds in the 30-day details cache expiry (`60*60*24*30`). -/
def detailsExpirySeconds : ℕ := 60 * 60 * 24 * 30

/-- Seconds in the 7-day search cache expiry (`60*60*24*7`). -/
def searchExpirySeconds : ℕ := 60 * 60 * 24 * 7

/-- Result of `PerenualClient.get_species_details`: the returned value,
the client state afterwards, and whether an outbound API request was
issued / the details cache was accessed at all. -/
structure DetailsResult where
  result : Option PyDict
  state : ClientState
  apiCalled : Bool
  cacheAccessed : Bool
deriving DecidableEq, Repr

/-- The cache-probe step of `get_species_details`: `cached_result =
cache.get(id)` followed by the truthiness test `if cached_result:` (an
empty dict falls through to the API call). -/
def detailsCacheHit (c : DetailsCache) (n : Int) (t : ℕ) : Option PyDict :=
  match cacheGet c n t with
  | some d => if d.isEmpty then none else some d
  | none => none

/-- `PerenualClient.get_species_details(species_id)` at instant `t`.
`api` is the outbound HTTP oracle: `some data` for a successful response
with parsed JSON body `data`, `none` for any HTTP/network/JSON error. -/
def getSpeciesDetails (apiKey : Option String) (api : Int → Option PyDict) (t : ℕ)
    (st : ClientState) (id : PyInt) : DetailsResult :=
  if ¬ hasApiKey apiKey then ⟨none, st, false, false⟩
  else match st.detailsCache with
  | none => ⟨none, st, false, false⟩
  | some c =>
    match id with
    | .nonInt => ⟨none, st, false, false⟩
    | .int n =>
      if n ≤ 0 then ⟨none, st, false, false⟩
      else
        match detailsCacheHit c n t with
        | some d => ⟨some d, st, false, true⟩
        | none =>
          match api n with
          | some data =>
            ⟨some data,
             { st with detailsCache := some (cacheSet c n data (some (t + detailsExpirySeconds))) },
             true, true⟩
          | none => ⟨none, st, true, true⟩

/-- `PerenualClient.add_or_update_details_cache(species_id, details_data)`.
Faithful to the source: after the validation checks, the `try` block only
logs success and returns `True` — the `self._details_cache.set(...)` call
is absent, so the client state is returned unchanged. -/
def addOrUpdateDetailsCache (st : ClientState) (id : PyInt) (data : PyDict) :
    Bool × ClientState :=
  match st.detailsCache with
  | none => (false, st)
  | some _ =>
    match id with
    | .nonInt => (false, st)
    | .int n =>
      if n ≤ 0 then (false, st)
      else if data.isEmpty then (false, st)
      else (true, st)

/-- `PerenualClient.get_cached_detail_entry(species_id)` at instant `t`. -/
def getCachedDetailEntry (t : ℕ) (st : ClientState) (id : PyInt) : Option PyDict :=
  match st.detailsCache with
  | none => none
  | some c =>
    match id with
    | .nonInt => none
    | .int n => if n ≤ 0 then none else cacheGet c n t

/-- `PerenualClient.delete_detail_entry(species_id)` at instant `t`. -/
def deleteDetailEntry (t : ℕ) (st : ClientState) (id : PyInt) : Bool × ClientState :=
  match st.detailsCache with
  | none => (false, st)
  | some c =>
    match id with
    | .nonInt => (false, st)
    | .int n =>
      if n ≤ 0 then (false, st)
      else if cacheContains c n t then
        (true, { st with detailsCache := some (cacheDel c n) })
      else (true, st)

/-- Python `str.strip()`: remove leading and trailing whitespace. -/
def pyStrip (s : String) : String :=
  ⟨((s.data.dropWhile Char.isWhitespace).reverse.dropWhile Char.isWhitespace).reverse⟩

/-- Python `str.lower()` (the names involved are ASCII). -/
def pyLower (s : String) : String :=
  ⟨s.data.map Char.toLower⟩

/-- The query strings that `search_species_by_name` refuses to search
for (compared against the stripped, lowercased query). -/
def ambiguousQueryNames : List String :=
  ["unknown", "classification failed", "unknown species in map", ""]

/-- Result of `PerenualClient.search_species_by_name`. -/
structure SearchResult where
  result : Option (List PyDict)
  state : ClientState
  httpCalled : Bool
deriving DecidableEq, Repr

/-- `PerenualClient.search_species_by_name(query_name)` at instant `t`.
`api` is the outbound HTTP oracle: `some lst` for a successful response
whose parsed `data` field is `lst`, `none` for any error. -/
def searchSpeciesByName (apiKey : Option String) (api : Option (List PyDict)) (t : ℕ)
    (st : ClientState) (q : PyQuery) : SearchResult :=
  if ¬ hasApiKey apiKey then ⟨none, st, false⟩
  else match st.searchCache with
  | none => ⟨none, st, false⟩
  | some c =>
    match q with
    | .nonStr => ⟨none, st, false⟩
    | .str s =>
      if s = "" ∨ (pyLower (pyStrip s) ∈ ambiguousQueryNames) then ⟨none, st, false⟩
      else
        match cacheGet c (pyLower (pyStrip s)) t with
        | some lst => ⟨some lst, st, false⟩
        | none =>
          match api with
          | some lst =>
            ⟨some lst,
             { st with searchCache := some (cacheSet c (pyLower (pyStrip s)) lst (some (t + searchExpirySeconds))) },
             true⟩
          | none => ⟨none, st, true⟩

/-- The initial species names for which `/predict` skips the Perenual
query (error/unknown placeholders produced by the local classification
section of `server_main.predict`). -/
def badInitialNames : List String :=
  ["Unknown", "Classification Failed", "Unknown Species in Map", "Setup Error"]

/-- `CONFIDENCE_THRESHOLD = 0.50` in `server_main.predict`. -/
def confidenceThreshold : ℚ := 0.50

/-- `should_query_perenual` in `server_main.predict`. -/
def shouldQueryPerenual (conf : ℚ) (initialName : String) : Bool :=
  decide (confidenceThreshold ≤ conf) && !(badInitialNames.contains initialName)

/-- The `perenual_fetched_data` dict built from a successful details
fetch: each field holds `details_data.get(key)` (which is `None` when the
key is absent); `sunlight` holds the comma-joined string of the string
elements of the `sunlight` list, or `None` when the value is not a list. -/
structure PerenualFetched where
  wateringFrequency : Option JField
  sunlight : Option String
  cycle : Option JField
  description : Option JField
deriving DecidableEq, Repr

/-- The string elements of a JSON array (`isinstance(sl, str)` filter). -/
def jprimString : JPrim → Option String
  | .jstr s => some s
  | _ => none

/-- The field extraction on `details_data` in `server_main.predict`. -/
def extractFetched (dd : PyDict) : PerenualFetched :=
  { wateringFrequency := dictGet dd "watering"
    sunlight :=
      match (dictGet dd "sunlight").getD (.arr []) with
      | .arr l => some (String.intercalate ", " (l.filterMap jprimString))
      | .prim _ => none
    cycle := dictGet dd "cycle"
    description := dictGet dd "description" }

/-- `v or default` on a possibly-absent dict value: the value when
present and truthy, otherwise the default string. -/
def orDefaultJ (v : Option JField) (d : String) : JField :=
  match v with
  | none => .prim (.jstr d)
  | some f => if f.truthy then f else .prim (.jstr d)

/-- `v or default` on a possibly-absent string value (the joined
`sunlight` string: the empty string is falsy). -/
def orDefaultS (v : Option String) (d : String) : JField :=
  match v with
  | none => .prim (.jstr d)
  | some s => if s = "" then .prim (.jstr d) else .prim (.jstr s)

/-- The outcome of the Perenual section of `/predict` plus the four
enrichment fields of the final `plant_data_response` payload. -/
structure PredictOutcome where
  searchCalled : Bool
  detailsCalled : Option Int
  speciesName : JField
  wateringFrequency : JField
  sunlight : JField
  cycle : JField
  description : JField
deriving DecidableEq, Repr

/-- Assemble a `PredictOutcome` from the Perenual-section results,
applying the `perenual_fetched_data.get(key) or default` payload
defaults of `server_main.predict`. -/
def mkPredictOutcome (sc : Bool) (dc : Option Int) (name : JField)
    (f : Option PerenualFetched) : PredictOutcome :=
  { searchCalled := sc
    detailsCalled := dc
    speciesName := name
    wateringFrequency := orDefaultJ (f.bind (·.wateringFrequency)) "N/A"
    sunlight := orDefaultS (f.bind (·.sunlight)) "N/A"
    cycle := orDefaultJ (f.bind (·.cycle)) "N/A"
    description := orDefaultJ (f.bind (·.description)) "No description available." }

/-- The body of the `if should_query_perenual:` branch of
`server_main.predict`: inspect the search result, and when its first
entry carries a truthy integer `id`, refine the species name from a
truthy `common_name` and fetch details for that id.  Returns the id the
details fetch was issued for (if any), the resulting species name, and
the `perenual_fetched_data` contents (`none` for the empty dict). -/
def perenualQueryOutcome (initialName : String) (searchResp : Option (List PyDict))
    (detailsResp : Int → Option PyDict) : Option Int × JField × Option PerenualFetched :=
  match searchResp with
  | some (first :: _) =>
    match dictGet first "id" with
    | some (.prim (.jint n)) =>
      if n ≠ 0 then
        let refined :=
          match dictGet first "common_name" with
          | some cn => if cn.truthy then cn else .prim (.jstr initialName)
          | none => .prim (.jstr initialName)
        match detailsResp n with
        | some dd =>
          if dd.isEmpty then (some n, refined, none)
          else (some n, refined, some (extractFetched dd))
        | none => (some n, refined, none)
      else (none, .prim (.jstr initialName), none)
    | _ => (none, .prim (.jstr initialName), none)
  | some [] => (none, .prim (.jstr initialName), none)
  | none => (none, .prim (.jstr initialName), none)

/-- The Perenual enrichment section of `server_main.predict` (steps 3
and 4 of the endpoint): given the local species confidence and initial
species name, conditionally query the Perenual client (search, then
conditionally details) and package the enrichment fields of the
response payload.  `searchResp` is the value returned by
`perenual_client.search_species_by_name`; `detailsResp id` the value
returned by `perenual_client.get_species_details(id)`. -/
def predictEnrich (conf : ℚ) (initialName : String) (searchResp : Option (List PyDict))
    (detailsResp : Int → Option PyDict) : PredictOutcome :=
  if shouldQueryPerenual conf initialName then
    match perenualQueryOutcome initialName searchResp detailsResp with
    | (dc, name, f) => mkPredictOutcome true dc name f
  else
    mkPredictOutcome false none (.prim (.jstr initialName)) none

/-- The `health_label_table` lookup of `create_tf_dataset` for model type
`"HealthDetector"`: a `StaticHashTable` mapping inferred integer label
`i` (for `0 ≤ i < len(inferred_class_names)`) to the `i`-th inferred
subdirectory name, with default value `''`. -/
def lookupHealthTable (inferredClassNames : List String) (i : Int) : String :=
  if i < 0 then "" else inferredClassNames.getD i.toNat ""

/-- A match of the character class plus literal part `[Hh]ealthy` at the
head of a character list. -/
def chunkHealthy : List Char → Bool
  | [] => false
  | c :: rest => (c == 'h' || c == 'H') && "ealthy".data.isPrefixOf rest

/-- Full-match semantics of the regular expression `.*[Hh]ealthy.*` used
by `map_to_health_label`: the string contains a match of `[Hh]ealthy`
somewhere. -/
def matchesHealthyPattern (s : String) : Bool :=
  (List.range s.data.length).any (fun i => chunkHealthy (s.data.drop i))

/-- `map_to_health_label` of `tf_data_pipeline_new.py`: look the inferred
integer label up in the table and remap to `0` when the subdirectory
name matches `.*[Hh]ealthy.*`, `1` otherwise. -/
def mapToHealthLabel (inferredClassNames : List String) (i : Int) : Int :=
  if matchesHealthyPattern (lookupHealthTable inferredClassNames i) then 0 else 1

/-- The class names returned by `create_tf_dataset` for model type
`"HealthDetector"`. -/
def healthDetectorClassNames : List String := ["healthy", "unhealthy"]

/-- The class indices returned by `create_tf_dataset` for model type
`"HealthDetector"`. -/
def healthDetectorClassIndices : List (String × ℕ) := [("healthy", 0), ("unhealthy", 1)]

/-- `start_hour = 0` in `CreateModel.train`. -/
def trainStartHour : ℕ := 0

/-- `end_hour = 7` in `CreateModel.train`. -/
def trainEndHour : ℕ := 7

/-- The gate `start_hour <= current_time.hour < end_hour` of
`CreateModel.train`. -/
def inTrainingWindow (h : ℕ) : Bool :=
  decide (trainStartHour ≤ h) && decide (h < trainEndHour)

/-- The polling sleep loop of `CreateModel.train`: starting from poll
instant `t`, repeatedly check the current hour and sleep ten minutes
(advancing to the next poll instant) until the hour lies in the training
window; returns the poll instant at which the loop exits, or `none` when
the fuel runs out before a poll lands in the window.  `hours t` is the
wall-clock hour observed at poll instant `t`. -/
def waitForWindow (hours : ℕ → ℕ) : ℕ → ℕ → Option ℕ
  | _, 0 => none
  | t, fuel + 1 =>
    if inTrainingWindow (hours t) then some t
    else waitForWindow hours (t + 1) fuel

/-- The epoch loop of `CreateModel.train`: for each of `epochs` epochs,
run the polling sleep loop and then invoke `model.fit` for one epoch at
the poll instant the loop exited at.  Returns the list of wall-clock
hours at which `model.fit` was invoked (the next epoch polls strictly
after the previous fit), or `none` when some wait ran out of fuel. -/
def trainFitHours (hours : ℕ → ℕ) : ℕ → ℕ → ℕ → Option (List ℕ)
  | 0, _, _ => some []
  | e + 1, t, fuel =>
    match waitForWindow hours t fuel with
    | none => none
    | some tFit =>
      match trainFitHours hours e (tFit + 1) fuel with
      | none => none
      | some rest => some (hours tFit :: rest)

/-- One row of the CSV manifest read by `PlantClassifier/organizer.py`
(`image_name`, `str(species_id)`, `learn_tag`). -/
structure ManifestRow where
  imageName : String
  speciesId : String
  learnTag : String
deriving DecidableEq, Repr

/-- The keys of the `source_folders` dict of `organizer.py`. -/
def sourceFolderTags : List String := ["train", "val", "test"]

/-- `destination_folder` of `organizer.py`. -/
def destinationFolder : String := "/research/PlantDataset/organized_images"

/-- The file-system state seen by `organizer.py`: the source files
present under each split's source folder (pairs of learn tag and image
file name, findable by the recursive glob of `find_image`), and the full
destination paths written so far. -/
structure OrganizerState where
  sourceFiles : List (String × String)
  destFiles : List String
deriving DecidableEq, Repr

/-- `find_image(image_name, dataset_type)`: whether the recursive glob
under the split's source folder finds the file. -/
def findImage (sourceFiles : List (String × String)) (imageName tag : String) : Prop :=
  (tag, imageName) ∈ sourceFiles

instance (sourceFiles : List (String × String)) (imageName tag : String) :
    Decidable (findImage sourceFiles imageName tag) :=
  inferInstanceAs (Decidable ((tag, imageName) ∈ sourceFiles))

/-- `os.path.join(destination_folder, dataset_type, species_id)` plus
the image name: the destination path a row's image is copied to. -/
def destPath (tag sid name : String) : String :=
  destinationFolder ++ "/" ++ tag ++ "/" ++ sid ++ "/" ++ name

/-- One iteration of the row loop of `organizer.py`: skip rows with an
unknown learn tag, a species id not in `class_mapping.txt`, or a source
image the glob cannot find; otherwise `shutil.copy` the image to
`destination_folder/<learn_tag>/<species_id>/<image_name>` (the source
file is left in place).  Returns the new state and whether a copy was
performed. -/
def processRow (validIds : List String) (st : OrganizerState) (r : ManifestRow) :
    OrganizerState × Bool :=
  if r.learnTag ∉ sourceFolderTags then (st, false)
  else if r.speciesId ∉ validIds then (st, false)
  else if findImage st.sourceFiles r.imageName r.learnTag then
    ({ st with destFiles := destPath r.learnTag r.speciesId r.imageName :: st.destFiles },
     true)
  else (st, false)

/-- The whole row loop of `organizer.py` over the CSV manifest. -/
def organizeRows (validIds : List String) (st : OrganizerState) :
    List ManifestRow → OrganizerState
  | [] => st
  | r :: rs => organizeRows validIds (processRow validIds st r).1 rs

/-- The characters of a folder name before the first occurrence of the
separator `"___"` (all of them when the separator is absent). -/
def speciesPartChars : List Char → List Char
  | [] => []
  | c :: rest =>
    if List.isPrefixOf ['_', '_', '_'] (c :: rest) then []
    else c :: speciesPartChars rest

/-- `f.split("___")[0]`: the part of a folder name before the first
`"___"` (the whole name when `"___"` is absent). -/
def speciesPart (f : String) : String :=
  ⟨speciesPartChars f.data⟩

/-- Whether the separator occurs in a character list. -/
def hasSepChars : List Char → Bool
  | [] => false
  | c :: rest => List.isPrefixOf ['_', '_', '_'] (c :: rest) || hasSepChars rest

/-- `"___" in f`. -/
def hasSpeciesSep (f : String) : Bool :=
  hasSepChars f.data

/-- Lexicographic comparison of character lists by code point,
modelling Python's string `<`. -/
def strLtChars : List Char → List Char → Bool
  | [], [] => false
  | [], _ :: _ => true
  | _ :: _, [] => false
  | a :: as, b :: bs =>
    if a.toNat < b.toNat then true
    else if b.toNat < a.toNat then false
    else strLtChars as bs

/-- Python string `<`. -/
def pyStrLt (s t : String) : Bool :=
  strLtChars s.data t.data

/-- Insert a string into an ascending list. -/
def insertSorted (s : String) : List String → List String
  | [] => [s]
  | x :: xs => if pyStrLt s x then s :: x :: xs else x :: insertSorted s xs

/-- Insertion sort on strings, modelling Python's `sorted`. -/
def sortStrings : List String → List String
  | [] => []
  | x :: xs => insertSorted x (sortStrings xs)

/-- `sorted(set(f.split("___")[0] for f in folder_names))`: the class
names inferred by `create_tf_dataset` for model type
`"PlantClassifier"` (label type `"species"`). -/
def plantClassNames (folderNames : List String) : List String :=
  sortStrings (folderNames.map speciesPart).dedup

/-- `final_class_indices.get(s, -1)` where `final_class_indices = {name:
i for i, name in enumerate(class_names)}`. -/
def classIndexOf : List String → String → Int
  | [], _ => -1
  | c :: rest, s =>
    if c = s then 0
    else
      if classIndexOf rest s = -1 then -1 else classIndexOf rest s + 1

/-- `get_label` of the `PlantClassifier` branch of `create_tf_dataset`
(label type `"species"`), as a function of the parent directory name of
the image file: when the name contains `"___"` the label part is the
portion before it, otherwise the label part is the literal string
`"unknown"`; the label is that part's class index, `-1` when absent. -/
def plantGetLabel (folderNames : List String) (parentDir : String) : Int :=
  let labelPart := if hasSpeciesSep parentDir then speciesPart parentDir else "unknown"
  classIndexOf (plantClassNames folderNames) labelPart

/-- The dataset filter `ds.filter(lambda x, y: y != -1)` of the
`PlantClassifier` branch: whether a file in the given parent directory
is kept in the dataset. -/
def plantDatasetKeeps (folderNames : List String) (parentDir : String) : Bool :=
  plantGetLabel folderNames parentDir ≠ -1

/-- The labelling rule as claim C8 words it: the index of the portion of
the parent directory name before `"___"`, the full directory name when
`"___"` is absent.  Stated from the claim's words for comparison with
`plantGetLabel`, which is translated from the source. -/
def claimedPlantLabel (folderNames : List String) (parentDir : String) : Int :=
  classIndexOf (plantClassNames folderNames) (speciesPart parentDir)

/-- A decoded PIL image: dimensions plus a pixel function giving the
`uint8` value of each (x, y, channel) sample after `convert('RGB')`. -/
structure RawImage where
  width : ℕ
  height : ℕ
  pix : ℕ → ℕ → ℕ → ℕ

/-- All samples of an image are `uint8` values (PIL mode `RGB`). -/
def RawImage.byteValued (img : RawImage) : Prop :=
  ∀ x y c, img.pix x y c ≤ 255

/-- An n-dimensional numeric array (the `np.ndarray` the server feeds to
its models), as a shape plus the row-major flattened data. -/
structure NDArray where
  shape : List ℕ
  data : List ℚ

/-- `np.expand_dims(np.array(image, dtype=np.float32) / 255.0, axis=0)`
for a 224x224 RGB image: shape `(1, 224, 224, 3)`, every entry the pixel
value divided by 255. -/
def imageToArray (img : RawImage) : NDArray :=
  { shape := [1, 224, 224, 3]
    data := (List.range 224).flatMap fun y =>
      (List.range 224).flatMap fun x =>
        (List.range 3).map fun c => (img.pix x y c : ℚ) / 255 }

/-- `server_main.preprocess_image(image_bytes)` with the default target
size `(224, 224)`.  `decode` models `Image.open(...).convert('RGB')`:
`none` when PIL raises on the byte string (the `except` branch returns
`None`); `resize` models `image.resize(target_size)`.  The function is
total: every exception inside the body is caught and mapped to `None`. -/
def preprocessImage (decode : List ℕ → Option RawImage)
    (resize : RawImage → ℕ × ℕ → RawImage) (imageBytes : List ℕ) : Option NDArray :=
  match decode imageBytes with
  | none => none
  | some img => some (imageToArray (resize img (224, 224)))

lemma find?_cacheDel_self {κ α : Type} [DecidableEq κ] (c : List (κ × CacheEntry α)) (k : κ) :
    (cacheDel c k).find? (fun p => p.1 = k) = none := by
  rw [List.find?_eq_none]
  intro x hx
  unfold cacheDel at hx
  rw [List.mem_filter] at hx
  simpa using hx.2

lemma cacheGet_del_self {κ α : Type} [DecidableEq κ] (c : List (κ × CacheEntry α)) (k : κ)
    (t : ℕ) : cacheGet (cacheDel c k) k t = none := by
  unfold cacheGet
  rw [find?_cacheDel_self]

lemma entryLive_mono {α : Type} (e : CacheEntry α) {t t2 : ℕ} (h : t ≤ t2)
    (hl : entryLive t e = false) : entryLive t2 e = false := by
  unfold entryLive at hl ⊢
  cases hx : e.expireAt with
  | none => rw [hx] at hl; simp at hl
  | some x =>
      rw [hx] at hl
      simp only [decide_eq_false_iff_not, not_lt] at hl ⊢
      omega

lemma cacheGet_none_mono {κ α : Type} [DecidableEq κ] (c : List (κ × CacheEntry α)) (k : κ)
    {t t2 : ℕ} (h : t ≤ t2) (hg : cacheGet c k t = none) : cacheGet c k t2 = none := by
  unfold cacheGet at hg ⊢
  cases hf : c.find? (fun p => p.1 = k) with
  | none => simp [hf]
  | some p =>
      simp only [hf] at hg ⊢
      by_cases hl : entryLive t p.2 = true
      · rw [if_pos hl] at hg
        exact absurd hg (by simp)
      · have hf2 : entryLive t p.2 = false := by
          revert hl
          cases entryLive t p.2 <;> simp
        have hl2 := entryLive_mono p.2 h hf2
        rw [if_neg (by simp [hl2])]

lemma cacheGet_set_same {κ α : Type} [DecidableEq κ] (c : List (κ × CacheEntry α)) (k : κ)
    (v : α) (e : Option ℕ) (t2 : ℕ) :
    cacheGet (cacheSet c k v e) k t2 =
      if entryLive t2 (⟨v, e⟩ : CacheEntry α) = true then some v else none := by
  unfold cacheGet cacheSet
  rw [List.find?_cons_of_pos _ (by simp)]

lemma cacheGet_some_elim {κ α : Type} [DecidableEq κ] {c : List (κ × CacheEntry α)} {k : κ}
    {t : ℕ} {v : α} (h : cacheGet c k t = some v) :
    ∃ p, c.find? (fun q => q.1 = k) = some p ∧ p.2.value = v ∧ entryLive t p.2 = true := by
  unfold cacheGet at h
  cases hf : c.find? (fun q => q.1 = k) with
  | none => simp [hf] at h
  | some p =>
      simp only [hf] at h
      by_cases hl : entryLive t p.2 = true
      · rw [if_pos hl] at h
        exact ⟨p, rfl, Option.some.inj h, hl⟩
      · rw [if_neg hl] at h
        exact absurd h (by simp)

/-- C1: the manual cache-maintenance operation `add_or_update_details_cache`
claims that a `True` return means the entry was stored, but the `try`
block of the source never calls `self._details_cache.set(...)`: on an
initialized, empty details cache, adding details for species id 1
returns `True`, yet `get_cached_detail_entry(1)` afterwards returns
`None` rather than the supplied dict.  This contradicts the method's own
docstring ("Manually adds or updates an entry in the details disk
cache") and the module's self-test, which expects to retrieve the entry
after a successful set. -/
theorem add_or_update_details_cache_does_not_persist :
    (addOrUpdateDetailsCache ⟨some [], some []⟩ (.int 1)
        [("common_name", .prim (.jstr "Manual Test Plant"))]).1 = true ∧
    getCachedDetailEntry 0
        (addOrUpdateDetailsCache ⟨some [], some []⟩ (.int 1)
          [("common_name", .prim (.jstr "Manual Test Plant"))]).2 (.int 1) = none ∧
    getCachedDetailEntry 0
        (addOrUpdateDetailsCache ⟨some [], some []⟩ (.int 1)
          [("common_name", .prim (.jstr "Manual Test Plant"))]).2 (.int 1) ≠
      some [("common_name", .prim (.jstr "Manual Test Plant"))] := by
  refine ⟨rfl, rfl, ?_⟩
  intro h
  simp [getCachedDetailEntry, addOrUpdateDetailsCache, cacheGet] at h

/-- C10: with the details cache initialized and a positive species id,
`delete_detail_entry` returns `True` whether or not the entry existed,
and afterwards `get_cached_detail_entry` for that id returns `None`;
`False` is returned only for an uninitialized cache or an invalid id
(the embedded cache has no I/O errors, so the error case is empty
here). -/
theorem delete_detail_entry_spec (st : ClientState) (c : DetailsCache) (n : Int)
    (t t2 : ℕ) (hc : st.detailsCache = some c) (hn : 0 < n) (ht : t ≤ t2) :
    (deleteDetailEntry t st (.int n)).1 = true ∧
    getCachedDetailEntry t2 (deleteDetailEntry t st (.int n)).2 (.int n) = none ∧
    (∀ (st2 : ClientState) (id2 : PyInt), (deleteDetailEntry t st2 id2).1 = false →
      st2.detailsCache = none ∨ id2 = .nonInt ∨ ∃ m, id2 = .int m ∧ m ≤ 0) := by
  have hn2 : ¬ n ≤ 0 := by omega
  refine ⟨?_, ?_, ?_⟩
  · unfold deleteDetailEntry
    rw [hc]
    simp only [hn2, if_false]
    by_cases hcon : cacheContains c n t = true
    · rw [if_pos hcon]
    · rw [if_neg hcon]
  · unfold deleteDetailEntry
    rw [hc]
    simp only [hn2, if_false]
    by_cases hcon : cacheContains c n t = true
    · rw [if_pos hcon]
      unfold getCachedDetailEntry
      simp only [hn2, if_false]
      exact cacheGet_del_self c n t2
    · rw [if_neg hcon]
      unfold getCachedDetailEntry
      rw [hc]
      simp only [hn2, if_false]
      have hg : cacheGet c n t = none := by
        unfold cacheContains at hcon
        revert hcon
        cases cacheGet c n t <;> simp
      exact cacheGet_none_mono c n ht hg
  · intro st2 id2 hfalse
    cases hc2 : st2.detailsCache with
    | none => exact Or.inl rfl
    | some c2 =>
        cases id2 with
        | nonInt => exact Or.inr (Or.inl rfl)
        | int m =>
            by_cases hm : m ≤ 0
            · exact Or.inr (Or.inr ⟨m, rfl, hm⟩)
            · exfalso
              unfold deleteDetailEntry at hfalse
              rw [hc2] at hfalse
              simp only [hm, if_false] at hfalse
              by_cases hcon : cacheContains c2 m t = true
              · rw [if_pos hcon] at hfalse
                exact absurd hfalse (by simp)
              · rw [if_neg hcon] at hfalse
                exact absurd hfalse (by simp)

/-- Witness for C10: deleting id 7 from a concrete one-entry cache
returns `True` and a subsequent lookup returns `None`. -/
theorem delete_detail_entry_spec_witness :
    (deleteDetailEntry 0 ⟨some [(7, ⟨[("watering", .prim (.jstr "Frequent"))], none⟩)], some []⟩
        (.int 7)).1 = true ∧
    getCachedDetailEntry 5
        (deleteDetailEntry 0 ⟨some [(7, ⟨[("watering", .prim (.jstr "Frequent"))], none⟩)], some []⟩
          (.int 7)).2 (.int 7) = none ∧
    (∀ (st2 : ClientState) (id2 : PyInt), (deleteDetailEntry 0 st2 id2).1 = false →
      st2.detailsCache = none ∨ id2 = .nonInt ∨ ∃ m, id2 = .int m ∧ m ≤ 0) :=
  delete_detail_entry_spec
    ⟨some [(7, ⟨[("watering", .prim (.jstr "Frequent"))], none⟩)], some []⟩
    [(7, ⟨[("watering", .prim (.jstr "Frequent"))], none⟩)] 7 0 5 rfl (by norm_num)
    (by norm_num)

/-- C6: `search_species_by_name` returns `None`, performs no outbound
HTTP request, and leaves the search cache untouched whenever the API key
is missing, the search cache failed to initialize, or the query is not a
string, is empty, or its stripped lowercase form is one of `"unknown"`,
`"classification failed"`, `"unknown species in map"`. -/
theorem search_species_guard (apiKey : Option String) (api : Option (List PyDict))
    (t : ℕ) (st : ClientState) (q : PyQuery)
    (h : apiKey = none ∨ st.searchCache = none ∨ q = .nonStr ∨
      ∃ s, q = .str s ∧ (s = "" ∨ pyLower (pyStrip s) = "unknown" ∨
        pyLower (pyStrip s) = "classification failed" ∨
        pyLower (pyStrip s) = "unknown species in map")) :
    (searchSpeciesByName apiKey api t st q).result = none ∧
    (searchSpeciesByName apiKey api t st q).httpCalled = false ∧
    (searchSpeciesByName apiKey api t st q).state = st := by
  by_cases hk : hasApiKey apiKey = true
  · rcases h with h | h | h | ⟨s, hq, hs⟩
    · rw [h] at hk
      simp [hasApiKey] at hk
    · unfold searchSpeciesByName
      rw [if_neg (by simp [hk]), h]
      exact ⟨rfl, rfl, rfl⟩
    · unfold searchSpeciesByName
      rw [if_neg (by simp [hk])]
      cases hsc : st.searchCache with
      | none => exact ⟨rfl, rfl, rfl⟩
      | some c => rw [h]; exact ⟨rfl, rfl, rfl⟩
    · unfold searchSpeciesByName
      rw [if_neg (by simp [hk])]
      cases hsc : st.searchCache with
      | none => exact ⟨rfl, rfl, rfl⟩
      | some c =>
          rw [hq]
          have hcond : s = "" ∨ pyLower (pyStrip s) ∈ ambiguousQueryNames := by
            rcases hs with hs | hs | hs | hs
            · exact Or.inl hs
            · exact Or.inr (by rw [hs]; simp [ambiguousQueryNames])
            · exact Or.inr (by rw [hs]; simp [ambiguousQueryNames])
            · exact Or.inr (by rw [hs]; simp [ambiguousQueryNames])
          simp only [hcond, if_true]
          exact ⟨trivial, trivial, trivial⟩
  · unfold searchSpeciesByName
    rw [if_pos (by simp [hk])]
    exact ⟨rfl, rfl, rfl⟩

/-- Witness for C6: searching for the placeholder name `"Unknown"` (whose
stripped lowercase form is `"unknown"`) with a present API key and an
initialized, empty search cache returns `None`, issues no HTTP request
and leaves the state unchanged. -/
theorem search_species_guard_witness :
    (searchSpeciesByName (some "key") (some []) 0 ⟨some [], some []⟩
        (.str "Unknown")).result = none ∧
    (searchSpeciesByName (some "key") (some []) 0 ⟨some [], some []⟩
        (.str "Unknown")).httpCalled = false ∧
    (searchSpeciesByName (some "key") (some []) 0 ⟨some [], some []⟩
        (.str "Unknown")).state = ⟨some [], some []⟩ :=
  search_species_guard (some "key") (some []) 0 ⟨some [], some []⟩ (.str "Unknown")
    (Or.inr (Or.inr (Or.inr ⟨"Unknown", rfl, Or.inr (Or.inl (by decide))⟩)))

lemma processRow_sourceFiles (validIds : List String) (st : OrganizerState)
    (r : ManifestRow) : (processRow validIds st r).1.sourceFiles = st.sourceFiles := by
  unfold processRow
  by_cases h1 : r.learnTag ∈ sourceFolderTags
  · rw [if_neg (not_not_intro h1)]
    by_cases h2 : r.speciesId ∈ validIds
    · rw [if_neg (not_not_intro h2)]
      by_cases h3 : findImage st.sourceFiles r.imageName r.learnTag
      · rw [if_pos h3]
      · rw [if_neg h3]
    · rw [if_pos h2]
  · rw [if_pos h1]

lemma organizeRows_sourceFiles (validIds : List String) (st : OrganizerState)
    (rows : List ManifestRow) :
    (organizeRows validIds st rows).sourceFiles = st.sourceFiles := by
  induction rows generalizing st with
  | nil => rfl
  | cons r rs ih =>
      unfold organizeRows
      rw [ih, processRow_sourceFiles]

/-- C5: a manifest row's image is copied to
`destination_folder/<learn_tag>/<species_id>/<image_name>` exactly when
the learn tag is one of train/val/test, the species id occurs in
`class_mapping.txt`, and the image is found under the corresponding
source folder; rows failing any condition leave the state unchanged, and
copying never removes source files (over the whole manifest loop the
source files are untouched). -/
theorem organizer_copies_iff (validIds : List String) (st : OrganizerState)
    (r : ManifestRow) :
    ((processRow validIds st r).2 = true ↔
      (r.learnTag ∈ sourceFolderTags ∧ r.speciesId ∈ validIds ∧
       findImage st.sourceFiles r.imageName r.learnTag)) ∧
    ((processRow validIds st r).2 = true →
      (processRow validIds st r).1.destFiles =
        destPath r.learnTag r.speciesId r.imageName :: st.destFiles) ∧
    ((processRow validIds st r).2 = false → (processRow validIds st r).1 = st) ∧
    (processRow validIds st r).1.sourceFiles = st.sourceFiles ∧
    (∀ rows, (organizeRows validIds st rows).sourceFiles = st.sourceFiles) := by
  refine ⟨?_, ?_, ?_, processRow_sourceFiles validIds st r,
    fun rows => organizeRows_sourceFiles validIds st rows⟩ <;>
    · unfold processRow
      by_cases h1 : r.learnTag ∈ sourceFolderTags
      · rw [if_neg (not_not_intro h1)]
        by_cases h2 : r.speciesId ∈ validIds
        · rw [if_neg (not_not_intro h2)]
          by_cases h3 : findImage st.sourceFiles r.imageName r.learnTag
          · rw [if_pos h3]
            simp [h1, h2, h3]
          · rw [if_neg h3]
            simp [h3]
        · rw [if_pos h2]
          simp [h2]
      · rw [if_pos h1]
        simp [h1]

/-- Witness for C5: a concrete valid row is copied, and the copy leaves
the single source file in place. -/
theorem organizer_copies_iff_witness :
    (processRow ["1355868"] ⟨[("train", "img1.jpg")], []⟩
        ⟨"img1.jpg", "1355868", "train"⟩).2 = true ∧
    (processRow ["1355868"] ⟨[("train", "img1.jpg")], []⟩
        ⟨"img1.jpg", "1355868", "train"⟩).1.sourceFiles = [("train", "img1.jpg")] := by
  have h := organizer_copies_iff ["1355868"] ⟨[("train", "img1.jpg")], []⟩
    ⟨"img1.jpg", "1355868", "train"⟩
  refine ⟨h.1.mpr ⟨?_, ?_, ?_⟩, h.2.2.2.1⟩ <;> · show _ ∈ _; decide

lemma waitForWindow_inWindow (hours : ℕ → ℕ) (t fuel t2 : ℕ)
    (h : waitForWindow hours t fuel = some t2) :
    inTrainingWindow (hours t2) = true := by
  induction fuel generalizing t with
  | zero => exact absurd h (by simp [waitForWindow])
  | succ fuel ih =>
      unfold waitForWindow at h
      by_cases hw : inTrainingWindow (hours t) = true
      · rw [if_pos hw] at h
        injection h with h2
        rw [← h2]
        exact hw
      · rw [if_neg hw] at h
        exact ih (t + 1) h

/-- C4: `CreateModel.train` never invokes `model.fit` for an epoch at a
wall-clock hour outside the window from hour 0 (inclusive) to hour 7
(exclusive): whenever the epoch loop completes with fit hours `l`, every
hour in `l` satisfies `0 ≤ h < 7`, because each epoch's polling sleep
loop re-checks the clock every ten minutes until the hour is inside the
window before `model.fit` is called. -/
theorem train_fit_hours_in_window (hours : ℕ → ℕ) (epochs t fuel : ℕ) (l : List ℕ)
    (h : trainFitHours hours epochs t fuel = some l) :
    ∀ x ∈ l, trainStartHour ≤ x ∧ x < trainEndHour := by
  induction epochs generalizing t l with
  | zero =>
      unfold trainFitHours at h
      injection h with h2
      rw [← h2]
      intro x hx
      exact absurd hx (by simp)
  | succ e ih =>
      unfold trainFitHours at h
      cases hw : waitForWindow hours t fuel with
      | none => rw [hw] at h; exact absurd h (by simp)
      | some tFit =>
          simp only [hw] at h
          cases hrest : trainFitHours hours e (tFit + 1) fuel with
          | none =>
              simp only [hrest] at h
              exact absurd h (by simp)
          | some rest =>
              simp only [hrest] at h
              injection h with h2
              rw [← h2]
              intro x hx
              rcases List.mem_cons.mp hx with hx | hx
              · have hwin := waitForWindow_inWindow hours t fuel tFit hw
                unfold inTrainingWindow at hwin
                simp only [Bool.and_eq_true, decide_eq_true_eq] at hwin
                rw [hx]
                exact hwin
              · exact ih (tFit + 1) rest hrest x hx

/-- Witness for C4: with the clock starting at hour 22 and advancing one
hour per ten-minute poll, a two-epoch run fits at hours 0 and 1, both
inside the window. -/
theorem train_fit_hours_in_window_witness :
    trainStartHour ≤ 0 ∧ 0 < trainEndHour :=
  train_fit_hours_in_window (fun t => (22 + t) % 24) 2 0 10 [0, 1] (by decide) 0
    (by decide)

lemma lookupHealthTable_get (names : List String) (i : ℕ) (h : i < names.length) :
    lookupHealthTable names (i : Int) = names.get ⟨i, h⟩ := by
  unfold lookupHealthTable
  rw [if_neg (by omega)]
  have h2 : ((i : Int)).toNat = i := Int.toNat_natCast i
  rw [h2, List.getD_eq_getElem?_getD, List.getElem?_eq_getElem h]
  rfl

/-- C3: for model type `"HealthDetector"`, every example's inferred
directory label `i` is remapped to the binary health label `0` exactly
when the `i`-th original subdirectory name matches `.*[Hh]ealthy.*`, and
`1` otherwise; the returned class names are exactly
`['healthy', 'unhealthy']` with indices `{'healthy': 0, 'unhealthy': 1}`. -/
theorem health_detector_label_mapping (names : List String) (i : ℕ)
    (h : i < names.length) :
    (mapToHealthLabel names (i : Int) = 0 ↔
      matchesHealthyPattern (names.get ⟨i, h⟩) = true) ∧
    (mapToHealthLabel names (i : Int) = 1 ↔
      matchesHealthyPattern (names.get ⟨i, h⟩) = false) ∧
    healthDetectorClassNames = ["healthy", "unhealthy"] ∧
    healthDetectorClassIndices = [("healthy", 0), ("unhealthy", 1)] := by
  refine ⟨?_, ?_, rfl, rfl⟩ <;>
    · unfold mapToHealthLabel
      rw [lookupHealthTable_get names i h]
      by_cases hm : matchesHealthyPattern (names.get ⟨i, h⟩) = true
      · rw [if_pos hm]
        simp only [List.get_eq_getElem] at hm
        simp [hm]
      · rw [if_neg hm]
        simp only [List.get_eq_getElem] at hm
        simp [hm]

/-- Witness for C3: in a directory list whose first entry is
`Tomato___healthy`, label 0 is remapped to 0 because the name matches
the healthy pattern. -/
theorem health_detector_label_mapping_witness :
    (mapToHealthLabel ["Tomato___healthy"] ((0 : ℕ) : Int) = 0 ↔
      matchesHealthyPattern (["Tomato___healthy"].get ⟨0, by decide⟩) = true) ∧
    (mapToHealthLabel ["Tomato___healthy"] ((0 : ℕ) : Int) = 1 ↔
      matchesHealthyPattern (["Tomato___healthy"].get ⟨0, by decide⟩) = false) ∧
    healthDetectorClassNames = ["healthy", "unhealthy"] ∧
    healthDetectorClassIndices = [("healthy", 0), ("unhealthy", 1)] :=
  health_detector_label_mapping ["Tomato___healthy"] 0 (by decide)

lemma mem_insertSorted (a s : String) (l : List String) :
    a ∈ insertSorted s l ↔ a = s ∨ a ∈ l := by
  induction l with
  | nil => simp [insertSorted]
  | cons x xs ih =>
      unfold insertSorted
      by_cases hlt : pyStrLt s x = true
      · rw [if_pos hlt]
        simp
      · rw [if_neg hlt]
        simp [ih]
        tauto

lemma mem_sortStrings (a : String) (l : List String) :
    a ∈ sortStrings l ↔ a ∈ l := by
  induction l with
  | nil => simp [sortStrings]
  | cons x xs ih =>
      unfold sortStrings
      rw [mem_insertSorted]
      simp [ih]

lemma classIndexOf_nonneg_of_mem (s : String) (l : List String) (h : s ∈ l) :
    0 ≤ classIndexOf l s := by
  induction l with
  | nil => exact absurd h (by simp)
  | cons c rest ih =>
      unfold classIndexOf
      by_cases hc : c = s
      · rw [if_pos hc]
      · rw [if_neg hc]
        have hmem : s ∈ rest := by
          rcases List.mem_cons.mp h with h2 | h2
          · exact absurd h2.symm hc
          · exact h2
        have hr := ih hmem
        by_cases hneg : classIndexOf rest s = -1
        · omega
        · rw [if_neg hneg]
          omega

lemma speciesPart_mem_classNames (folderNames : List String) (parent : String)
    (hmem : parent ∈ folderNames) :
    speciesPart parent ∈ plantClassNames folderNames := by
  unfold plantClassNames
  rw [mem_sortStrings, List.mem_dedup]
  exact List.mem_map_of_mem speciesPart hmem

/-- Counterexample to C8 as stated: in a directory tree with the single
class folder `Rose` (no `"___"` separator), the claim says files in
`Rose` get the index of the full directory name (`0`, hence kept), but
`get_label` looks up the literal string `"unknown"` and labels them
`-1`, so they are filtered out of the dataset. -/
theorem plant_classifier_label_counterexample :
    plantGetLabel ["Rose"] "Rose" = -1 ∧
    claimedPlantLabel ["Rose"] "Rose" = 0 ∧
    plantGetLabel ["Rose"] "Rose" ≠ claimedPlantLabel ["Rose"] "Rose" ∧
    plantDatasetKeeps ["Rose"] "Rose" = false := by
  refine ⟨by decide, by decide, by decide, by decide⟩

/-- C8 (amended): for model type `"PlantClassifier"`, a file whose
parent directory name contains `"___"` is labelled with the index of the
portion before `"___"` in the sorted list of distinct species
substrings (a non-negative index, so the file is kept); when `"___"` is
absent the label part is the literal string `"unknown"`, whose class
index is looked up instead of the full directory name; every file whose
label is `-1` is excluded from the dataset. -/
theorem plant_classifier_labels (folderNames : List String) (parent : String)
    (hmem : parent ∈ folderNames) :
    (hasSpeciesSep parent = true →
      plantGetLabel folderNames parent = claimedPlantLabel folderNames parent ∧
      0 ≤ plantGetLabel folderNames parent ∧
      plantDatasetKeeps folderNames parent = true) ∧
    (hasSpeciesSep parent = false →
      plantGetLabel folderNames parent =
        classIndexOf (plantClassNames folderNames) "unknown") ∧
    (∀ (fns : List String) (p : String),
      plantGetLabel fns p = -1 → plantDatasetKeeps fns p = false) := by
  refine ⟨?_, ?_, ?_⟩
  · intro hsep
    have heq : plantGetLabel folderNames parent = claimedPlantLabel folderNames parent := by
      unfold plantGetLabel claimedPlantLabel
      rw [if_pos hsep]
    have hpos : 0 ≤ plantGetLabel folderNames parent := by
      rw [heq]
      unfold claimedPlantLabel
      exact classIndexOf_nonneg_of_mem _ _ (speciesPart_mem_classNames folderNames parent hmem)
    refine ⟨heq, hpos, ?_⟩
    unfold plantDatasetKeeps
    simp only [decide_eq_true_eq]
    omega
  · intro hsep
    unfold plantGetLabel
    rw [if_neg (by simp [hsep])]
  · intro fns p hlab
    unfold plantDatasetKeeps
    simp [hlab]

/-- Witness for C8 (amended): with folders `Tomato___Blight` and
`Tomato___healthy`, a file under `Tomato___Blight` is labelled with the
index of `"Tomato"` (0) and kept. -/
theorem plant_classifier_labels_witness :
    plantGetLabel ["Tomato___Blight", "Tomato___healthy"] "Tomato___Blight" =
      claimedPlantLabel ["Tomato___Blight", "Tomato___healthy"] "Tomato___Blight" ∧
    0 ≤ plantGetLabel ["Tomato___Blight", "Tomato___healthy"] "Tomato___Blight" ∧
    plantDatasetKeeps ["Tomato___Blight", "Tomato___healthy"] "Tomato___Blight" = true :=
  (plant_classifier_labels ["Tomato___Blight", "Tomato___healthy"] "Tomato___Blight"
    (by decide)).1 (by decide)

/-- C2: the `/predict` endpoint queries the Perenual client if and only
if the local species confidence is at least 0.50 and the initial species
name is none of the four placeholder strings; a details fetch only ever
happens under the same condition, and when the condition fails the
payload's enrichment fields are the local defaults `"N/A"` and
`"No description available."`. -/
theorem predict_queries_perenual_iff (conf : ℚ) (name : String)
    (searchResp : Option (List PyDict)) (detailsResp : Int → Option PyDict) :
    ((predictEnrich conf name searchResp detailsResp).searchCalled = true ↔
      ((1 : ℚ) / 2 ≤ conf ∧ name ≠ "Unknown" ∧ name ≠ "Classification Failed" ∧
       name ≠ "Unknown Species in Map" ∧ name ≠ "Setup Error")) ∧
    ((predictEnrich conf name searchResp detailsResp).detailsCalled ≠ none →
      ((1 : ℚ) / 2 ≤ conf ∧ name ≠ "Unknown" ∧ name ≠ "Classification Failed" ∧
       name ≠ "Unknown Species in Map" ∧ name ≠ "Setup Error")) ∧
    (¬ ((1 : ℚ) / 2 ≤ conf ∧ name ≠ "Unknown" ∧ name ≠ "Classification Failed" ∧
        name ≠ "Unknown Species in Map" ∧ name ≠ "Setup Error") →
      (predictEnrich conf name searchResp detailsResp).wateringFrequency =
        .prim (.jstr "N/A") ∧
      (predictEnrich conf name searchResp detailsResp).sunlight = .prim (.jstr "N/A") ∧
      (predictEnrich conf name searchResp detailsResp).cycle = .prim (.jstr "N/A") ∧
      (predictEnrich conf name searchResp detailsResp).description =
        .prim (.jstr "No description available.")) := by
  have hthr : confidenceThreshold = (1 : ℚ) / 2 := by
    unfold confidenceThreshold
    norm_num
  have hcond : shouldQueryPerenual conf name = true ↔
      ((1 : ℚ) / 2 ≤ conf ∧ name ≠ "Unknown" ∧ name ≠ "Classification Failed" ∧
       name ≠ "Unknown Species in Map" ∧ name ≠ "Setup Error") := by
    unfold shouldQueryPerenual badInitialNames
    rw [hthr]
    simp [and_assoc]
  by_cases hq : shouldQueryPerenual conf name = true
  · have hsc : (predictEnrich conf name searchResp detailsResp).searchCalled = true := by
      unfold predictEnrich
      rw [if_pos hq]
      rcases perenualQueryOutcome name searchResp detailsResp with ⟨dc, nm, f⟩
      rfl
    refine ⟨?_, ?_, ?_⟩
    · rw [hsc]
      simp only [true_iff]
      exact hcond.mp hq
    · intro _
      exact hcond.mp hq
    · intro hnc
      exact absurd (hcond.mp hq) hnc
  · have hcf : shouldQueryPerenual conf name = false := by
      revert hq
      cases shouldQueryPerenual conf name <;> simp
    have hout : predictEnrich conf name searchResp detailsResp =
        mkPredictOutcome false none (.prim (.jstr name)) none := by
      unfold predictEnrich
      rw [if_neg (by simp [hcf])]
    refine ⟨?_, ?_, ?_⟩
    · rw [hout]
      constructor
      · intro hfalse
        exact absurd hfalse (by simp [mkPredictOutcome])
      · intro hc
        exact absurd (hcond.mpr hc) (by simp [hcf])
    · rw [hout]
      intro hig
      exact absurd rfl hig
    · intro _
      rw [hout]
      exact ⟨rfl, rfl, rfl, rfl⟩

/-- Witness for C2: with confidence 0 and initial name `"Unknown"`, the
client is not queried and the payload holds the local defaults. -/
theorem predict_queries_perenual_iff_witness :
    (predictEnrich 0 "Unknown" none (fun _ => none)).wateringFrequency =
      .prim (.jstr "N/A") ∧
    (predictEnrich 0 "Unknown" none (fun _ => none)).sunlight = .prim (.jstr "N/A") ∧
    (predictEnrich 0 "Unknown" none (fun _ => none)).cycle = .prim (.jstr "N/A") ∧
    (predictEnrich 0 "Unknown" none (fun _ => none)).description =
      .prim (.jstr "No description available.") :=
  (predict_queries_perenual_iff 0 "Unknown" none (fun _ => none)).2.2
    (by intro h; exact h.2.1 rfl)

lemma cacheGet_of_find {κ α : Type} [DecidableEq κ] {c : List (κ × CacheEntry α)} {k : κ}
    {p : κ × CacheEntry α} (hf : c.find? (fun q => q.1 = k) = some p) (t2 : ℕ)
    (hl : entryLive t2 p.2 = true) : cacheGet c k t2 = some p.2.value := by
  unfold cacheGet
  simp only [hf]
  rw [if_pos hl]

lemma detailsCacheHit_of_get (c : DetailsCache) (n : Int) (t : ℕ) (d : PyDict)
    (hg : cacheGet c n t = some d) (hne : d ≠ []) : detailsCacheHit c n t = some d := by
  unfold detailsCacheHit
  simp only [hg]
  rw [if_neg (by simp [hne])]

lemma detailsCacheHit_some_elim {c : DetailsCache} {n : Int} {t : ℕ} {d : PyDict}
    (h : detailsCacheHit c n t = some d) : cacheGet c n t = some d ∧ d ≠ [] := by
  unfold detailsCacheHit at h
  cases hg : cacheGet c n t with
  | none => simp [hg] at h
  | some d1 =>
      simp only [hg] at h
      by_cases he : d1.isEmpty = true
      · rw [if_pos he] at h
        exact absurd h (by simp)
      · rw [if_neg he] at h
        injection h with h2
        subst h2
        exact ⟨rfl, by simpa using he⟩

/-- C7: once `get_species_details(n)` succeeds with a non-empty dict
`d`, the post-call details cache holds an entry for `n` with value `d`
and some expiry `e` (which is `t + 30 days` whenever the call actually
went to the API), and any second call while that entry is unexpired
returns `d` from the disk cache, changes nothing, and issues no outbound
API request regardless of the API's behaviour; and every call with a
species id that is not a positive integer returns `None` without any
cache or API access. -/
theorem get_species_details_cache_spec (apiKey : Option String)
    (api : Int → Option PyDict) (t : ℕ) (st : ClientState) (n : Int) (d : PyDict)
    (hres : (getSpeciesDetails apiKey api t st (.int n)).result = some d)
    (hne : d ≠ []) :
    (∃ c e, (getSpeciesDetails apiKey api t st (.int n)).state.detailsCache = some c ∧
      ((getSpeciesDetails apiKey api t st (.int n)).apiCalled = true →
        e = some (t + detailsExpirySeconds)) ∧
      (∀ (t2 : ℕ) (api2 : Int → Option PyDict),
        entryLive t2 (⟨d, e⟩ : CacheEntry PyDict) = true →
        getSpeciesDetails apiKey api2 t2
            (getSpeciesDetails apiKey api t st (.int n)).state (.int n) =
          ⟨some d, (getSpeciesDetails apiKey api t st (.int n)).state, false, true⟩)) ∧
    (∀ (apiKey2 : Option String) (api2 : Int → Option PyDict) (t2 : ℕ)
       (st2 : ClientState) (id2 : PyInt),
      (id2 = .nonInt ∨ ∃ m, id2 = .int m ∧ m ≤ 0) →
      getSpeciesDetails apiKey2 api2 t2 st2 id2 = ⟨none, st2, false, false⟩) := by
  constructor
  · by_cases hk : hasApiKey apiKey = true
    · unfold getSpeciesDetails at hres
      rw [if_neg (not_not_intro hk)] at hres
      cases hdc : st.detailsCache with
      | none =>
          simp only [hdc] at hres
          exact absurd hres (by simp)
      | some c0 =>
          simp only [hdc] at hres
          by_cases hn0 : n ≤ 0
          · rw [if_pos hn0] at hres
            exact absurd hres (by simp)
          · rw [if_neg hn0] at hres
            cases hhit : detailsCacheHit c0 n t with
            | some d0 =>
                simp only [hhit] at hres
                have hd0 : d0 = d := by simpa using hres
                subst hd0
                have hdesc : getSpeciesDetails apiKey api t st (.int n) =
                    ⟨some d0, st, false, true⟩ := by
                  unfold getSpeciesDetails
                  rw [if_neg (not_not_intro hk)]
                  simp only [hdc]
                  rw [if_neg hn0]
                  simp only [hhit]
                obtain ⟨hg0, hne0⟩ := detailsCacheHit_some_elim hhit
                obtain ⟨p, hfind, hval, hlivet⟩ := cacheGet_some_elim hg0
                refine ⟨c0, p.2.expireAt, ?_, ?_, ?_⟩
                · rw [hdesc]
                  exact hdc
                · intro habs
                  rw [hdesc] at habs
                  exact absurd habs (by simp)
                · intro t2 api2 hlive
                  rw [hdesc]
                  show getSpeciesDetails apiKey api2 t2 st (.int n) =
                    ⟨some d0, st, false, true⟩
                  have hlive2 : entryLive t2 p.2 = true := hlive
                  have hg2 : cacheGet c0 n t2 = some d0 := by
                    rw [cacheGet_of_find hfind t2 hlive2, hval]
                  have hhit2 : detailsCacheHit c0 n t2 = some d0 :=
                    detailsCacheHit_of_get c0 n t2 d0 hg2 hne0
                  unfold getSpeciesDetails
                  rw [if_neg (not_not_intro hk)]
                  simp only [hdc]
                  rw [if_neg hn0]
                  simp only [hhit2]
            | none =>
                simp only [hhit] at hres
                cases hapi : api n with
                | none =>
                    simp only [hapi] at hres
                    simp at hres
                | some data =>
                    simp only [hapi] at hres
                    have hd : data = d := by simpa using hres
                    subst hd
                    have hdesc : getSpeciesDetails apiKey api t st (.int n) =
                        ⟨some data, { st with detailsCache := some (cacheSet c0 n data (some (t + detailsExpirySeconds))) }, true, true⟩ := by
                      unfold getSpeciesDetails
                      rw [if_neg (not_not_intro hk)]
                      simp only [hdc]
                      rw [if_neg hn0]
                      simp only [hhit, hapi]
                    refine ⟨cacheSet c0 n data (some (t + detailsExpirySeconds)),
                      some (t + detailsExpirySeconds), ?_, ?_, ?_⟩
                    · rw [hdesc]
                    · intro _
                      rfl
                    · intro t2 api2 hlive
                      rw [hdesc]
                      show getSpeciesDetails apiKey api2 t2 { st with detailsCache := some (cacheSet c0 n data (some (t + detailsExpirySeconds))) } (.int n) =
                        ⟨some data, { st with detailsCache := some (cacheSet c0 n data (some (t + detailsExpirySeconds))) }, false, true⟩
                      have hg2 : cacheGet (cacheSet c0 n data (some (t + detailsExpirySeconds)))
                          n t2 = some data := by
                        rw [cacheGet_set_same]
                        rw [if_pos hlive]
                      have hhit2 : detailsCacheHit
                          (cacheSet c0 n data (some (t + detailsExpirySeconds))) n t2 =
                          some data :=
                        detailsCacheHit_of_get _ n t2 data hg2 hne
                      unfold getSpeciesDetails
                      rw [if_neg (not_not_intro hk)]
                      simp only []
                      rw [if_neg hn0]
                      simp only [hhit2]
    · exfalso
      unfold getSpeciesDetails at hres
      rw [if_pos hk] at hres
      exact absurd hres (by simp)
  · intro apiKey2 api2 t2 st2 id2 hid
    unfold getSpeciesDetails
    by_cases hk2 : hasApiKey apiKey2 = true
    · rw [if_neg (not_not_intro hk2)]
      cases hdc2 : st2.detailsCache with
      | none => rfl
      | some c2 =>
          rcases hid with hid | ⟨m, hid, hm⟩
          · rw [hid]
          · rw [hid]
            simp [hm]
    · rw [if_pos hk2]

/-- Witness for C7: a concrete successful fetch (empty cache, API
returning a one-field dict) caches the result with a 30-day expiry, and
a later call within the window hits the cache without an API request. -/
theorem get_species_details_cache_spec_witness :
    (∃ c e, (getSpeciesDetails (some "key")
        (fun _ => some [("watering", .prim (.jstr "Frequent"))]) 100
        ⟨some [], some []⟩ (.int 3)).state.detailsCache = some c ∧
      ((getSpeciesDetails (some "key")
          (fun _ => some [("watering", .prim (.jstr "Frequent"))]) 100
          ⟨some [], some []⟩ (.int 3)).apiCalled = true →
        e = some (100 + detailsExpirySeconds)) ∧
      (∀ (t2 : ℕ) (api2 : Int → Option PyDict),
        entryLive t2 (⟨[("watering", .prim (.jstr "Frequent"))], e⟩ : CacheEntry PyDict) = true →
        getSpeciesDetails (some "key") api2 t2
            (getSpeciesDetails (some "key")
              (fun _ => some [("watering", .prim (.jstr "Frequent"))]) 100
              ⟨some [], some []⟩ (.int 3)).state (.int 3) =
          ⟨some [("watering", .prim (.jstr "Frequent"))],
           (getSpeciesDetails (some "key")
             (fun _ => some [("watering", .prim (.jstr "Frequent"))]) 100
             ⟨some [], some []⟩ (.int 3)).state, false, true⟩)) ∧
    (∀ (apiKey2 : Option String) (api2 : Int → Option PyDict) (t2 : ℕ)
       (st2 : ClientState) (id2 : PyInt),
      (id2 = .nonInt ∨ ∃ m, id2 = .int m ∧ m ≤ 0) →
      getSpeciesDetails apiKey2 api2 t2 st2 id2 = ⟨none, st2, false, false⟩) :=
  get_species_details_cache_spec (some "key")
    (fun _ => some [("watering", .prim (.jstr "Frequent"))]) 100
    ⟨some [], some []⟩ 3 [("watering", .prim (.jstr "Frequent"))] (by decide) (by decide)

/-- C9: for every input byte string, `preprocess_image` returns either
`None` or an array of shape `(1, 224, 224, 3)` whose entries all lie in
`[0, 1]`; the embedding is a total function whose `None` branch absorbs
every exception of the body (PIL decode failures and all other errors
are caught and mapped to `None`), so no exception reaches the caller.
The hypotheses record what the imaging library guarantees: decoded
`RGB` images and their resizes are `uint8`-valued. -/
theorem preprocess_image_shape_range (decode : List ℕ → Option RawImage)
    (resize : RawImage → ℕ × ℕ → RawImage) (imageBytes : List ℕ)
    (hdec : ∀ img, decode imageBytes = some img → img.byteValued)
    (hresz : ∀ img, img.byteValued → (resize img (224, 224)).byteValued) :
    preprocessImage decode resize imageBytes = none ∨
    ∃ arr, preprocessImage decode resize imageBytes = some arr ∧
      arr.shape = [1, 224, 224, 3] ∧ ∀ q ∈ arr.data, 0 ≤ q ∧ q ≤ 1 := by
  cases hd : decode imageBytes with
  | none =>
      left
      unfold preprocessImage
      simp [hd]
  | some img =>
      right
      refine ⟨imageToArray (resize img (224, 224)), ?_, rfl, ?_⟩
      · unfold preprocessImage
        simp [hd]
      · intro q hq
        have hbv := hresz img (hdec img hd)
        unfold imageToArray at hq
        simp only [List.mem_flatMap, List.mem_map, List.mem_range] at hq
        obtain ⟨y, _, x, _, c, _, hqe⟩ := hq
        rw [← hqe]
        constructor
        · apply div_nonneg (Nat.cast_nonneg _)
          norm_num
        · rw [div_le_one (by norm_num)]
          have h255 := hbv x y c
          exact_mod_cast h255

/-- Witness for C9: concrete decode and resize oracles satisfying the
`uint8` hypotheses give an in-range `(1, 224, 224, 3)` result. -/
theorem preprocess_image_shape_range_witness :
    preprocessImage (fun _ => some ⟨1, 1, fun _ _ _ => 0⟩)
        (fun _ _ => ⟨224, 224, fun _ _ _ => 7⟩) [] = none ∨
    ∃ arr, preprocessImage (fun _ => some ⟨1, 1, fun _ _ _ => 0⟩)
        (fun _ _ => ⟨224, 224, fun _ _ _ => 7⟩) [] = some arr ∧
      arr.shape = [1, 224, 224, 3] ∧ ∀ q ∈ arr.data, 0 ≤ q ∧ q ≤ 1 :=
  preprocess_image_shape_range (fun _ => some ⟨1, 1, fun _ _ _ => 0⟩)
    (fun _ _ => ⟨224, 224, fun _ _ _ => 7⟩) []
    (fun img h => by
      injection h with h2
      rw [← h2]
      intro x y c
      norm_num)
    (fun img _ => by
      intro x y c
      norm_num)
